import Mathlib

/-!
# Verification of the dyorm DynamoDB abstraction layer

Shallow embedding of the Go package `dynamodb` (repository sghaida/dyorm)
and proofs about its partitioner, expression builder, bulk-read
orchestrator and bulk-write handler.

Go machine integers are modelled as `Int` (overflow never matters at the
sizes involved); Go's `/` and `%` on `int` truncate toward zero, so they
are embedded as `Int.tdiv` and `Int.tmod`.  Fallible Go functions
returning `(T, error)` are embedded as `Except String T`; `nil` pointers
become `Option`.
-/

namespace Dyorm

/-- `IdxRange` from src/paginator.go: lower and upper bound of a sub-slice. -/
structure IdxRange where
  Low : Int
  High : Int
deriving DecidableEq, Repr

/-- `Partition` from src/paginator.go.  The Go function streams the ranges
over a channel; the embedding returns the ordered finite list of ranges
the channel yields.  `collectionLen / partitionSize` and
`collectionLen % partitionSize` are Go `int` operations, i.e. truncated
division and its remainder (`Int.tdiv` / `Int.tmod`).  The goroutine
emits one full range per loop iteration (`i = 0 .. numFullPartitions-1`)
and, when the remainder is non-zero, a final left-over range whose `Low`
uses the loop's final value of `i`, namely `numFullPartitions`. -/
def Partition (collectionLen partitionSize : Int) : List IdxRange :=
  if partitionSize ≤ 0 then []
  else
    let numFullPartitions := collectionLen.tdiv partitionSize
    let full := (List.range numFullPartitions.toNat).map (fun i =>
      { Low := (i : Int) * partitionSize, High := ((i : Int) + 1) * partitionSize })
    if collectionLen.tmod partitionSize ≠ 0 then
      full ++ [{ Low := numFullPartitions * partitionSize, High := collectionLen }]
    else
      full

example : Partition 29 25 = [⟨0, 25⟩, ⟨25, 29⟩] := by decide
example : Partition 10 0 = [] := by decide
example : Partition 0 15 = [] := by decide
example : Partition 100 10 = (List.range 10).map (fun i => ⟨10 * i, 10 * i + 10⟩) := by decide

/-- Closed form of `Partition` on non-negative arguments: range `i` is
`[i*P, min ((i+1)*P) N)` and there are `⌈N/P⌉ = (N+P-1)/P` ranges. -/
theorem Partition_ofNat (N P : Nat) (hP : 0 < P) :
    Partition (N : Int) (P : Int) =
      (List.range ((N + P - 1) / P)).map
        (fun i => ⟨((i * P : Nat) : Int), ((min ((i + 1) * P) N : Nat) : Int)⟩) := by
  have hPint : ¬ ((P : Int) ≤ 0) := by
    simp only [not_le]
    exact_mod_cast hP
  have htdiv : (N : Int).tdiv (P : Int) = ((N / P : Nat) : Int) := rfl
  have htmod : (N : Int).tmod (P : Int) = ((N % P : Nat) : Int) := rfl
  have hdm : P * (N / P) + N % P = N := Nat.div_add_mod N P
  have hrP : N % P < P := Nat.mod_lt _ hP
  have hle_elem : ∀ i, i < N / P → (i + 1) * P ≤ N := by
    intro i hi
    calc (i + 1) * P ≤ (N / P) * P := Nat.mul_le_mul_right _ (by omega)
      _ = P * (N / P) := Nat.mul_comm _ _
      _ ≤ N := by omega
  unfold Partition
  rw [if_neg hPint]
  simp only [htdiv, htmod, Int.toNat_natCast]
  by_cases hr : N % P = 0
  · have hcount : (N + P - 1) / P = N / P := by
      have h1 : N + P - 1 = (P - 1) + P * (N / P) := by omega
      rw [h1, Nat.add_mul_div_left _ _ hP, Nat.div_eq_of_lt (by omega)]
      omega
    have hcond : ((N % P : Nat) : Int) = 0 := by
      simp only [hr, Nat.cast_zero]
    rw [if_neg (not_not_intro hcond), hcount]
    apply List.map_congr_left
    intro i hi
    have hmin : min ((i + 1) * P) N = (i + 1) * P :=
      min_eq_left (hle_elem i (List.mem_range.mp hi))
    simp only [hmin]
    refine congrArg₂ IdxRange.mk ?_ ?_ <;> push_cast <;> ring
  · have hexp : P * (N / P + 1) = P * (N / P) + P := by ring
    have hcount : (N + P - 1) / P = N / P + 1 := by
      have h1 : N + P - 1 = (N % P - 1) + P * (N / P + 1) := by omega
      rw [h1, Nat.add_mul_div_left _ _ hP, Nat.div_eq_of_lt (by omega)]
      omega
    have hcond : (((N % P : Nat) : Int) ≠ 0) := by
      exact_mod_cast hr
    rw [if_pos hcond, hcount, List.range_succ, List.map_append]
    congr 1
    · apply List.map_congr_left
      intro i hi
      have hmin : min ((i + 1) * P) N = (i + 1) * P :=
        min_eq_left (hle_elem i (List.mem_range.mp hi))
      simp only [hmin]
      refine congrArg₂ IdxRange.mk ?_ ?_ <;> push_cast <;> ring
    · have hexp2 : (N / P + 1) * P = P * (N / P) + P := by ring
      have hlt : N < (N / P + 1) * P := by omega
      have hmin : min ((N / P + 1) * P) N = N := min_eq_right (le_of_lt hlt)
      simp only [List.map_cons, List.map_nil, hmin]
      refine congrArg (fun x => [x]) (congrArg₂ IdxRange.mk ?_ ?_) <;> push_cast <;> ring

/-- Indexing a mapped range: helper for reading off `Partition`'s ranges. -/
theorem get_map_range {α : Type} (c : Nat) (F : Nat → α) (i : Nat)
    (h : i < ((List.range c).map F).length) :
    ((List.range c).map F).get ⟨i, h⟩ = F i := by
  simp [List.get_eq_getElem, List.getElem_map, List.getElem_range]

/-- C6: for every collection length `n ≥ 0` and partition size `p > 0`,
`Partition n p` yields exactly `⌈n/p⌉` ranges, in order (`Low` of range `i`
is `i*p`, `High` is `min ((i+1)*p) n`), each of width at most `p`, together
covering `[0, n)` exactly once (every point lies in exactly one range, so
there are no gaps and no overlaps); and for every `p ≤ 0`, `Partition n p`
yields zero ranges regardless of `n`. -/
theorem partition_covers (n p : Int) :
    (p ≤ 0 → Partition n p = []) ∧
    (0 ≤ n → 0 < p →
      (Partition n p).length = (n.toNat + p.toNat - 1) / p.toNat ∧
      (∀ i, ∀ h : i < (Partition n p).length,
        ((Partition n p).get ⟨i, h⟩).Low = (i : Int) * p ∧
        ((Partition n p).get ⟨i, h⟩).High = min (((i : Int) + 1) * p) n ∧
        ((Partition n p).get ⟨i, h⟩).High - ((Partition n p).get ⟨i, h⟩).Low ≤ p) ∧
      (∀ k : Int, 0 ≤ k → k < n →
        ∃! i : Fin (Partition n p).length,
          ((Partition n p).get i).Low ≤ k ∧ k < ((Partition n p).get i).High)) := by
  constructor
  · intro hp
    unfold Partition
    rw [if_pos hp]
  · intro hn hp
    obtain ⟨N, rfl⟩ : ∃ N : Nat, n = (N : Int) :=
      ⟨n.toNat, (Int.toNat_of_nonneg hn).symm⟩
    obtain ⟨P, rfl⟩ : ∃ P : Nat, p = (P : Int) :=
      ⟨p.toNat, (Int.toNat_of_nonneg (le_of_lt hp)).symm⟩
    have hP : 0 < P := by exact_mod_cast hp
    rw [Partition_ofNat N P hP]
    set F : Nat → IdxRange :=
      fun i => ⟨((i * P : Nat) : Int), ((min ((i + 1) * P) N : Nat) : Int)⟩ with hF
    refine ⟨by simp, ?_, ?_⟩
    · intro i h
      rw [get_map_range _ F i h]
      have hi : i < (N + P - 1) / P := by simpa using h
      refine ⟨by push_cast; ring, by push_cast; rfl, ?_⟩
      have hmin : ((min ((i + 1) * P) N : Nat) : Int) ≤ (((i + 1) * P : Nat) : Int) := by
        exact_mod_cast Nat.min_le_left _ _
      have hexp : (((i + 1) * P : Nat) : Int) = ((i * P : Nat) : Int) + (P : Int) := by
        push_cast
        ring
      simp only [hF]
      omega
    · intro k hk0 hkn
      obtain ⟨k', rfl⟩ : ∃ k' : Nat, k = (k' : Nat) :=
        ⟨k.toNat, (Int.toNat_of_nonneg hk0).symm⟩
      have hk'N : k' < N := by exact_mod_cast hkn
      have hceil : (N + P - 1) / P = (N - 1) / P + 1 := by
        have h1 : N + P - 1 = (N - 1) + P := by omega
        rw [h1, Nat.add_div_right _ hP]
      have hdm' : P * (k' / P) + k' % P = k' := Nat.div_add_mod k' P
      have hrP' : k' % P < P := Nat.mod_lt _ hP
      have hj : k' / P < (N + P - 1) / P := by
        have hle : k' / P ≤ (N - 1) / P := Nat.div_le_div_right (by omega)
        omega
      have hjlen : k' / P < ((List.range ((N + P - 1) / P)).map F).length := by
        simpa using hj
      have hkup : k' < (k' / P + 1) * P := by
        have hexp : (k' / P + 1) * P = P * (k' / P) + P := by ring
        omega
      refine ⟨⟨k' / P, hjlen⟩, ⟨?_, ?_⟩, ?_⟩
      · rw [get_map_range _ F _ hjlen]
        show ((k' / P * P : Nat) : Int) ≤ (k' : Int)
        exact_mod_cast Nat.div_mul_le_self k' P
      · rw [get_map_range _ F _ hjlen]
        show (k' : Int) < ((min ((k' / P + 1) * P) N : Nat) : Int)
        exact_mod_cast lt_min hkup hk'N
      · intro j hjmem
        obtain ⟨j, hjl⟩ := j
        have hjl' : j < (N + P - 1) / P := by simpa using hjl
        rw [get_map_range _ F _ hjl] at hjmem
        simp only [hF] at hjmem
        obtain ⟨hlo, hhi⟩ := hjmem
        have hlo' : j * P ≤ k' := by exact_mod_cast hlo
        have hhi' : k' < min ((j + 1) * P) N := by exact_mod_cast hhi
        have hhi'' : k' < (j + 1) * P := lt_of_lt_of_le hhi' (Nat.min_le_left _ _)
        have : k' / P = j := Nat.div_eq_of_lt_le hlo' hhi''
        exact Fin.ext (by simpa using this.symm)

/-- Witness for `partition_covers`: concrete instantiations discharging each
hypothesis (`p ≤ 0` at `(10, 0)`; `0 ≤ n`, `0 < p` at `(29, 25)`). -/
theorem partition_covers_witness :
    Partition 10 0 = [] ∧
      (Partition 29 25).length = ((29 : Int).toNat + (25 : Int).toNat - 1) / (25 : Int).toNat :=
  ⟨(partition_covers 10 0).1 (by decide),
   ((partition_covers 29 25).2 (by decide) (by decide)).1⟩

/-! ## Expression builder (src/aws_expression.go)

The AWS SDK `expression` package is embedded as follows: a
`ConditionBuilder` / `KeyConditionBuilder` is a syntax tree; the Go zero
value of either builder is `Option.none`; update builders hold their
`SET` assignments as an ordered list (the zero `UpdateBuilder` is `[]`).
Compilation to provider strings is kept symbolic: a compiled request
stores the syntax tree that produced each expression slot (tagged by
which builder slot it came from), which determines the provider string.
Attribute values in the key paths of this repository are always DynamoDB
`S` (string) attributes (`&dynamodb.AttributeValue{S: aws.String v}`),
embedded as `String`; a `nil` `*dynamodb.AttributeValue` is `none`. -/

/-- A Go `interface{}` value passed to `expression.Value`: the repository
passes strings, numbers, and the `FromToDate` pair. -/
inductive GoVal where
  | str (s : String)
  | num (n : Int)
  | fromToDate (fromDate toDate : Nat)
deriving DecidableEq, Repr

/-- `Operator` from src/aws_expression.go is a Go `int`; `EQUAL` is
`iota + 1 = 1` and the rest follow. -/
abbrev Operator := Int

def EQUAL : Operator := 1
def LT : Operator := 2
def LE : Operator := 3
def GT : Operator := 4
def GE : Operator := 5
def BETWEEN : Operator := 6

/-- Syntax tree of an SDK `expression.ConditionBuilder` as built by this
repository (comparisons, `Between`, `And`, `Or`). -/
inductive CondAST where
  | equal (name : String) (v : GoVal)
  | lessThan (name : String) (v : GoVal)
  | lessThanEqual (name : String) (v : GoVal)
  | greaterThan (name : String) (v : GoVal)
  | greaterThanEqual (name : String) (v : GoVal)
  | between (name : String) (lo hi : GoVal)
  | and (a b : CondAST)
  | or (a b : CondAST)
deriving DecidableEq, Repr

/-- Syntax tree of an SDK `expression.KeyConditionBuilder`. -/
inductive KeyCondAST where
  | equal (name : String) (v : GoVal)
  | lessThan (name : String) (v : GoVal)
  | lessThanEqual (name : String) (v : GoVal)
  | greaterThan (name : String) (v : GoVal)
  | greaterThanEqual (name : String) (v : GoVal)
  | keyAnd (a b : KeyCondAST)
deriving DecidableEq, Repr

/-- `createCondition` from src/aws_expression.go: the `FromToDate` type
switch comes first (`BETWEEN` builds a two-sided bound, any other operator
falls back to greater-or-equal on the from-date), then the operator
switch, whose `default` arm builds an equality. -/
def createCondition (name : String) (value : GoVal) (operator : Operator) : CondAST :=
  match value with
  | .fromToDate fromDate toDate =>
    if operator = BETWEEN then
      .between name (.num fromDate) (.num toDate)
    else
      -- failsafe as the minimum value is going to be 0 for epoch
      .greaterThanEqual name (.num fromDate)
  | _ =>
    if operator = EQUAL then .equal name value
    else if operator = LT then .lessThan name value
    else if operator = LE then .lessThanEqual name value
    else if operator = GT then .greaterThan name value
    else if operator = GE then .greaterThanEqual name value
    else .equal name value

/-- `createKeyCondition` from src/aws_expression.go. -/
def createKeyCondition (name : String) (value : GoVal) (operator : Operator) : KeyCondAST :=
  if operator = EQUAL then .equal name value
  else if operator = LT then .lessThan name value
  else if operator = LE then .lessThanEqual name value
  else if operator = GT then .greaterThan name value
  else if operator = GE then .greaterThanEqual name value
  else .equal name value

/-- `AwsExpressionWrapper` from src/aws_expression.go.  `none` / `[]`
model the Go zero values the code tests with `reflect.DeepEqual`. -/
structure AwsExpressionWrapper where
  updateExpression : List (String × GoVal)
  conditionExpression : Option CondAST
  keyCondition : Option KeyCondAST
  projection : List String
  partitionKeyValue : Option String
  sortKeyValue : Option String
  exclusiveStartKey : List (String × Option String)
  scanIndexForward : Option Bool
  partitionKeyName : String
  sortKeyName : String
  dynamoDBTable : String
  dynamoDBIndex : String
  limit : Option Int
deriving DecidableEq, Repr

/-- `NewExpressionWrapper` from src/aws_expression.go. -/
def NewExpressionWrapper (tableName : String) : AwsExpressionWrapper where
  updateExpression := []
  conditionExpression := none
  keyCondition := none
  projection := []
  partitionKeyValue := none
  sortKeyValue := none
  exclusiveStartKey := []
  scanIndexForward := none
  partitionKeyName := ""
  sortKeyName := ""
  dynamoDBTable := tableName
  dynamoDBIndex := ""
  limit := none

namespace AwsExpressionWrapper

/-- `WithUpdateField` from src/aws_expression.go.  When the update builder
is still the zero value, the field is stored via `expression.Set`.
Otherwise the code calls `expr.updateExpression.Set(...)`: the SDK's
`UpdateBuilder.Set` has a value receiver and returns a new builder, and
the returned builder is discarded, so the wrapper's update expression is
left unchanged by the call. -/
def WithUpdateField (expr : AwsExpressionWrapper) (name : String) (value : GoVal) :
    AwsExpressionWrapper :=
  if expr.updateExpression = [] then
    { expr with updateExpression := [(name, value)] }
  else
    expr

/-- `WithLimit` from src/aws_expression.go. -/
def WithLimit (expr : AwsExpressionWrapper) (limit : Int) : AwsExpressionWrapper :=
  { expr with limit := some limit }

/-- `WithCondition` from src/aws_expression.go. -/
def WithCondition (expr : AwsExpressionWrapper) (name : String) (value : GoVal)
    (operator : Operator) : AwsExpressionWrapper :=
  { expr with conditionExpression := some (createCondition name value operator) }

/-- `AndCondition` from src/aws_expression.go: establishes the first
condition when none is set, otherwise AND-combines. -/
def AndCondition (expr : AwsExpressionWrapper) (name : String) (value : GoVal)
    (operator : Operator) : AwsExpressionWrapper :=
  match expr.conditionExpression with
  | none => expr.WithCondition name value operator
  | some cond =>
    { expr with conditionExpression := some (.and cond (createCondition name value operator)) }

/-- `OrCondition` from src/aws_expression.go. -/
def OrCondition (expr : AwsExpressionWrapper) (name : String) (value : GoVal)
    (operator : Operator) : AwsExpressionWrapper :=
  match expr.conditionExpression with
  | none => expr.WithCondition name value operator
  | some cond =>
    { expr with conditionExpression := some (.or cond (createCondition name value operator)) }

/-- `WithKeyCondition` from src/aws_expression.go. -/
def WithKeyCondition (expr : AwsExpressionWrapper) (name : String) (value : GoVal)
    (operator : Operator) : AwsExpressionWrapper :=
  { expr with keyCondition := some (createKeyCondition name value operator) }

/-- `AndKeyCondition` from src/aws_expression.go. -/
def AndKeyCondition (expr : AwsExpressionWrapper) (name : String) (value : GoVal)
    (operator : Operator) : AwsExpressionWrapper :=
  match expr.keyCondition with
  | none => expr.WithKeyCondition name value operator
  | some cond =>
    { expr with keyCondition := some (.keyAnd cond (createKeyCondition name value operator)) }

/-- `WithPartitionKey` from src/aws_expression.go: the value pointer is
only populated for a non-empty value string. -/
def WithPartitionKey (expr : AwsExpressionWrapper) (pKey pValue : String) :
    AwsExpressionWrapper :=
  let expr := { expr with partitionKeyName := pKey }
  if pValue.length > 0 then { expr with partitionKeyValue := some pValue } else expr

/-- `WithSortingKey` from src/aws_expression.go. -/
def WithSortingKey (expr : AwsExpressionWrapper) (sKey sValue : String) :
    AwsExpressionWrapper :=
  let expr := { expr with sortKeyName := sKey }
  if sValue.length > 0 then { expr with sortKeyValue := some sValue } else expr

/-- `CreateQueryKeys` from src/aws_expression.go.  The returned Go map has
at most the partition and sort key names as keys; it is embedded as the
association list in insertion order (the two names are distinct in every
use in the repository).  Note the sort entry stores `expr.sortKeyValue`
even when that pointer is nil. -/
def CreateQueryKeys (expr : AwsExpressionWrapper) :
    Except String (List (String × Option String)) :=
  if expr.partitionKeyName.length < 1 ∨ expr.partitionKeyValue = none then
    .error "missing partition key"
  else
    let attributeValues := [(expr.partitionKeyName, expr.partitionKeyValue)]
    if expr.sortKeyName.length > 0 then
      .ok (attributeValues ++ [(expr.sortKeyName, expr.sortKeyValue)])
    else
      .ok attributeValues

/-- `dynamodb.UpdateItemInput` as filled in by `BuildUpdateInput`: the
compiled update clause is the list of `SET name = value` assignments of
the update builder (which determines the provider's update-expression
string and attribute maps). -/
structure UpdateItemInput where
  updateClause : List (String × GoVal)
  Key : List (String × Option String)
  TableName : String
deriving DecidableEq, Repr

/-- `BuildUpdateInput` from src/aws_expression.go: fails when no update
field was ever stored, otherwise compiles keys and the accumulated update
expression (an `expression.Builder` holding a non-empty update always
builds successfully). -/
def BuildUpdateInput (expr : AwsExpressionWrapper) : Except String UpdateItemInput := do
  if expr.updateExpression = [] then
    .error "their is nothing set to be updated, please use WithUpdateField"
  else
    let keys ← expr.CreateQueryKeys
    .ok { updateClause := expr.updateExpression, Key := keys, TableName := expr.dynamoDBTable }

/-- The filter slot of a compiled `dynamodb.ScanInput`: either the filter
string compiled from the condition builder (`Expression.Filter()`) or the
key-condition string compiled into the filter position
(`Expression.KeyCondition()`). -/
inductive ScanFilterSrc where
  | fromCondition (c : CondAST)
  | fromKeyCondition (k : KeyCondAST)
deriving DecidableEq, Repr

/-- `dynamodb.ScanInput` as filled in by `BuildScanInput`. -/
structure ScanInput where
  FilterExpression : Option ScanFilterSrc
  TableName : String
  Limit : Option Int
  ExclusiveStartKey : List (String × Option String)
deriving DecidableEq, Repr

/-- `BuildScanInput` from src/aws_expression.go.  The second branch's Go
guard is `!reflect.DeepEqual(expr.keyCondition, expression.ConditionBuilder{})`,
which compares an `expression.KeyConditionBuilder` against a
`ConditionBuilder` zero value; `reflect.DeepEqual` on values of distinct
types is always `false`, so the guard is always true and the branch always
executes.  Inside it, when the key-condition slot holds a condition the
builder compiles it and the compiled key condition is written into the
scan input's `FilterExpression`; when the slot is still the zero
`KeyConditionBuilder`, `builder.Build()` fails (`unset parameter`), the
error is discarded (`awsExpressionBuilder, _ :=`), and the zero
`Expression`'s accessors return nil, so the freshly assigned input has a
nil filter.  Either way the input assembled in the first branch is
overwritten wholesale. -/
def BuildScanInput (expr : AwsExpressionWrapper) : Except String ScanInput :=
  if expr.dynamoDBTable.length = 0 then
    .error "missing table-name"
  else
    let input : ScanInput :=
      { FilterExpression := none, TableName := expr.dynamoDBTable
        Limit := none, ExclusiveStartKey := [] }
    let input : ScanInput :=
      match expr.conditionExpression with
      | some cond =>
        { FilterExpression := some (.fromCondition cond), TableName := expr.dynamoDBTable
          Limit := none, ExclusiveStartKey := [] }
      | none => input
    -- reflect.DeepEqual(expr.keyCondition, expression.ConditionBuilder{}) is
    -- always false (distinct types), so this reassignment is unconditional.
    let input : ScanInput :=
      match expr.keyCondition with
      | some keyCond =>
        { FilterExpression := some (.fromKeyCondition keyCond), TableName := expr.dynamoDBTable
          Limit := none, ExclusiveStartKey := [] }
      | none =>
        { FilterExpression := none, TableName := expr.dynamoDBTable
          Limit := none, ExclusiveStartKey := [] }
    let input : ScanInput :=
      match expr.limit with
      | some l => if l ≥ 1 then { input with Limit := some l } else input
      | none => input
    let input :=
      if expr.exclusiveStartKey.length > 0 then
        { input with ExclusiveStartKey := expr.exclusiveStartKey }
      else input
    .ok input

end AwsExpressionWrapper

/-- C4: evaluation of the code at the failing input.  Two `WithUpdateField`
calls with distinct field names (`"a"` then `"b"`) on one wrapper do NOT
accumulate: the update clause produced by `BuildUpdateInput` covers only
the first field `"a"`, the second call's field `"b"` is dropped (the Go
code discards the builder returned by `UpdateBuilder.Set`), contradicting
the claim that each later call adds its field to the accumulated clause. -/
theorem withUpdateField_drops_later_fields :
    ((((NewExpressionWrapper "request-test").WithPartitionKey "pk" "v").WithUpdateField
        "a" (.num 1)).WithUpdateField "b" (.num 2)).BuildUpdateInput =
      .ok { updateClause := [("a", .num 1)], Key := [("pk", some "v")]
            TableName := "request-test" } := by
  rfl

/-- C5: for every wrapper with a non-empty table name holding both a filter
condition and a key condition, `BuildScanInput` succeeds and maps the key
condition into the `FilterExpression` position of the scan input, and this
key-condition compilation overwrites the request assembled from the filter
condition (the filter slot holds the key condition, not the filter). -/
theorem buildScanInput_keyCondition_overwrites_filter
    (expr : AwsExpressionWrapper) (c : CondAST) (k : KeyCondAST)
    (htable : expr.dynamoDBTable.length ≠ 0)
    (hcond : expr.conditionExpression = some c)
    (hkey : expr.keyCondition = some k) :
    ∃ input : AwsExpressionWrapper.ScanInput,
      expr.BuildScanInput = .ok input ∧
      input.FilterExpression = some (.fromKeyCondition k) ∧
      input.FilterExpression ≠ some (.fromCondition c) := by
  unfold AwsExpressionWrapper.BuildScanInput
  rw [if_neg htable, hcond, hkey]
  refine ⟨_, rfl, ?_⟩
  cases expr.limit with
  | none =>
    by_cases h : expr.exclusiveStartKey.length > 0 <;> simp [h]
  | some l =>
    by_cases hl : l ≥ 1 <;>
      by_cases h : expr.exclusiveStartKey.length > 0 <;> simp [h, hl]

/-- Witness for `buildScanInput_keyCondition_overwrites_filter` at a
concrete wrapper carrying both a filter condition and a key condition. -/
theorem buildScanInput_keyCondition_overwrites_filter_witness :
    ∃ input : AwsExpressionWrapper.ScanInput,
      (((NewExpressionWrapper "request-test").WithCondition "abc" (.num 123) GE).WithKeyCondition
          "partitionID" (.num 123) EQUAL).BuildScanInput = .ok input ∧
      input.FilterExpression =
        some (.fromKeyCondition (createKeyCondition "partitionID" (.num 123) EQUAL)) ∧
      input.FilterExpression ≠
        some (.fromCondition (createCondition "abc" (.num 123) GE)) :=
  buildScanInput_keyCondition_overwrites_filter _ _ _ (by decide) (by decide) (by decide)

/-! ## Data model (table configuration and key values) -/

/-- `DBPSKeyNames`: attribute names of a table's (or index's) partition and
sort keys; a table without a sort key has `SortKey = none`. -/
structure DBPSKeyNames where
  PartitionKey : String
  SortKey : Option String
deriving DecidableEq, Repr

/-- `DBTableInfo`: table name plus the embedded `DBPSKeyNames`. -/
structure DBTableInfo where
  TableName : String
  keys : DBPSKeyNames
deriving DecidableEq, Repr

/-- `DBConfig`: main table info and the per-index key names. -/
structure DBConfig where
  TableInfo : DBTableInfo
  Indexes : List (String × DBPSKeyNames)
deriving DecidableEq, Repr

/-- `dbPSKeyValues`: resolved partition (and optional sort) key values of
one record (`DBKeyValue` is a string type). -/
structure DBPSKeyValues where
  partitionKey : String
  sortKey : Option String
deriving DecidableEq, Repr

/-- The `Keys` attribute maps of a batch request: each entry is one
compiled key (`CreateQueryKeys` result). -/
abbrev DBKeyAttr := List (String × Option String)

/-! ## Bulk read orchestrator (src/query.go)

`GetByIDs` launches one goroutine per `Partition` range; each task builds
a batch-get request for its sub-slice, runs `loadPage`, and sends exactly
one `baseModelsWithErr` message on a channel whose capacity equals the
number of chunks.  Concurrency is embedded by making the order in which
the chunk messages become available on the channel (`arrival`) an explicit
parameter, and the unbounded recursion on unprocessed keys is embedded
with explicit fuel: a `none` result means the corresponding Go execution
has not terminated.  The transport `T` is the deterministic
`BatchGetItemWithContext` collaborator (request keys in, responses and
unprocessed keys under the handler's table out, or an error), and `U` is
the record's `Unmarshal` capability. -/

/-- One `dynamodb.BatchGetItemOutput`, restricted to the handler's single
table: `Responses[tableName]` and the unprocessed keys that the recursion
resubmits verbatim as the next request. -/
structure BatchGetOutput (Item : Type) where
  Responses : List Item
  UnprocessedKeys : List DBKeyAttr
deriving DecidableEq, Repr

/-- `baseModelsWithErr` from src/query.go: one chunk task's channel message. -/
structure baseModelsWithErr (Rec : Type) where
  Records : List Rec
  Err : Option String
deriving DecidableEq, Repr

/-- The per-id body of `handlerImp.buildGetRequests` from src/query.go:
compile one id's keys (partition key always, sort key only when both the
table declares one and the id carries one). -/
def compileGetKey (cfg : DBConfig) (id : DBPSKeyValues) : Except String DBKeyAttr :=
  let dbKeys := cfg.TableInfo.keys
  let expr := (NewExpressionWrapper cfg.TableInfo.TableName).WithPartitionKey
    dbKeys.PartitionKey id.partitionKey
  let expr :=
    match dbKeys.SortKey, id.sortKey with
    | some sk, some sv => expr.WithSortingKey sk sv
    | _, _ => expr
  expr.CreateQueryKeys

/-- `handlerImp.buildGetRequests` continued: accumulate the compiled keys,
skipping failures. -/
def buildGetRequests (cfg : DBConfig) (ids : List DBPSKeyValues) : List DBKeyAttr :=
  ids.foldl (fun attributes id =>
    match compileGetKey cfg id with
    | .error _ => attributes
    | .ok attrMap => attributes ++ [attrMap]) []

/-- The `acc` closure of `loadPage`: decode the response items in order,
appending each to `records`; the first decode error aborts, keeping what
was already appended. -/
def accItems {Item Rec : Type} (U : Item → Except String Rec) :
    List Rec → List Item → List Rec × Option String
  | records, [] => (records, none)
  | records, item :: rest =>
    match U item with
    | .error e => (records, some e)
    | .ok mdl => accItems U (records ++ [mdl]) rest

/-- The recursive `load` closure of `loadPage`, with explicit fuel for the
unbounded recursion on unprocessed keys (`none` = the Go recursion is
still running after `fuel` transport calls).  Returns the `records`
accumulator, the error if any, and the number of transport calls made. -/
def loadFuel {Item Rec : Type} (T : List DBKeyAttr → Except String (BatchGetOutput Item))
    (U : Item → Except String Rec) :
    Nat → List DBKeyAttr → List Rec → Option (List Rec × Option String × Nat)
  | 0, _, _ => none
  | fuel + 1, req, records =>
    match T req with
    | .error e => some (records, some e, 1)
    | .ok res =>
      match accItems U records res.Responses with
      | (records, some e) => some (records, some e, 1)
      | (records, none) =>
        if res.UnprocessedKeys ≠ [] then
          match loadFuel T U fuel res.UnprocessedKeys records with
          | none => none
          | some (records, err, n) => some (records, err, n + 1)
        else
          some (records, none, 1)

/-- `handlerImp.loadPage` from src/query.go: the message one chunk task
sends on the result channel, paired with the number of batch-get calls the
task makes (`none` when the unprocessed-keys recursion exceeds the fuel). -/
def loadPage {Item Rec : Type} (T : List DBKeyAttr → Except String (BatchGetOutput Item))
    (U : Item → Except String Rec) (fuel : Nat) (req : List DBKeyAttr) :
    Option (baseModelsWithErr Rec × Nat) :=
  match loadFuel T U fuel req [] with
  | none => none
  | some (records, err, n) => some ({ Records := records, Err := err }, n)

/-- Go slice expression `xs[lo:hi]` (for in-range bounds). -/
def sliceGo {α : Type} (xs : List α) (lo hi : Int) : List α :=
  (xs.take hi.toNat).drop lo.toNat

/-- The chunk tasks `GetByIDs` launches: one per range of
`Partition (len dbKeys) 25`, each building the batch-get request for its
sub-slice `dbKeys[page.Low:page.High]` and running `loadPage`. -/
def getByIDsTasks {Item Rec : Type} (cfg : DBConfig)
    (T : List DBKeyAttr → Except String (BatchGetOutput Item))
    (U : Item → Except String Rec) (fuel : Nat) (dbKeys : List DBPSKeyValues) :
    List (Option (baseModelsWithErr Rec × Nat)) :=
  (Partition (dbKeys.length : Int) 25).map (fun page =>
    loadPage T U fuel (buildGetRequests cfg (sliceGo dbKeys page.Low page.High)))

/-- The receive/append loop of `GetByIDs` (src/query.go lines 41-51).
`arrival` is the sequence of chunk messages in the order they become
available on the channel.  Receiving when no message is pending blocks
forever — no task will ever send again and the channel is never closed —
encoded as `none`.  `done` in `res, done := <-ch` is the receive's
ok-flag; the channel is never closed, so `done` is `true` for every
delivered message and `if done break` leaves the loop after the first
received message. -/
def getByIDsAgg {Rec : Type} :
    List (baseModelsWithErr Rec) → List Rec → Option (Except String (List Rec))
  | [], _ => none
  | msg :: _, records =>
    match msg.Err with
    | some e => some (.error e)
    | none =>
      let records := records ++ msg.Records
      -- done = true: break
      some (.ok records)

/-- `handlerImp.GetByIDs` observable outcome as a function of the order in
which the chunk messages arrive: `some (.ok records)` / `some (.error e)`
for a normal return, `none` when the call never returns. -/
def GetByIDs {Rec : Type} (arrival : List (baseModelsWithErr Rec)) :
    Option (Except String (List Rec)) :=
  getByIDsAgg arrival []

/-- Total number of batch-get transport calls across all chunk tasks: the
tasks keep running in the background even after the caller has returned,
so all of them contribute (`none` when some task never terminates). -/
def getByIDsCalls {Item Rec : Type} (cfg : DBConfig)
    (T : List DBKeyAttr → Except String (BatchGetOutput Item))
    (U : Item → Except String Rec) (fuel : Nat) (dbKeys : List DBPSKeyValues) :
    Option Nat :=
  (getByIDsTasks cfg T U fuel dbKeys).foldl (fun acc task =>
    match acc, task with
    | some n, some (_, m) => some (n + m)
    | _, _ => none) (some 0)

/-! ## Concrete bulk-read scenarios -/

/-- Test configuration: table `"table"`, partition key attribute
`"pkey"`, no sort key, no indexes. -/
def cfgNoSort : DBConfig where
  TableInfo := { TableName := "table", keys := { PartitionKey := "pkey", SortKey := none } }
  Indexes := []

/-- A transport that fulfils every batch-get on the first attempt: one
item per requested key, no unprocessed keys, no error. -/
def echoTransport : List DBKeyAttr → Except String (BatchGetOutput Nat) :=
  fun req => .ok { Responses := List.range req.length, UnprocessedKeys := [] }

/-- The always-succeeding decoder. -/
def idDecode : Nat → Except String Nat := fun n => .ok n

/-- A transport that fails any single-key batch-get request and fulfils
all others on the first attempt. -/
def errOn1Transport : List DBKeyAttr → Except String (BatchGetOutput Nat) :=
  fun req =>
    if req.length = 1 then .error "fake error"
    else .ok { Responses := List.range req.length, UnprocessedKeys := [] }

/-- C1: evaluation of the code at the failing input.  With 29 valid keys
and a transport that returns every requested item on the first attempt
with no unprocessed keys and no error, the orchestrator dispatches two
chunk tasks (25 and 4 keys) and exactly 2 batch-get calls are issued; but
the aggregator's `done` flag is the ok-flag of a receive on a never-closed
channel, so it stops after draining a single message: when the 25-key
chunk completes first, the call returns its 25 records with a nil error
and never drains the second message — not the 29 records the claim
requires. -/
theorem getByIDs_29_keys_returns_first_chunk_only :
    getByIDsTasks cfgNoSort echoTransport idDecode 1 (List.replicate 29 ⟨"p", none⟩) =
      [some ({ Records := List.range 25, Err := none }, 1),
       some ({ Records := List.range 4, Err := none }, 1)] ∧
    getByIDsCalls cfgNoSort echoTransport idDecode 1 (List.replicate 29 ⟨"p", none⟩) =
      some 2 ∧
    GetByIDs [{ Records := List.range 25, Err := none },
              { Records := List.range 4, Err := none }] =
      some (.ok (List.range 25)) ∧
    (List.range 25).length ≠ 29 :=
  ⟨by decide, by decide, rfl, by decide⟩

/-- C2: evaluation of the code at the failing input.  With 26 valid keys
(chunks of 25 and 1) and a transport that errors exactly on the 1-key
chunk's request, the error propagates only when the failing chunk's
message arrives first; when the successful chunk completes first, the call
returns its 25 records with a nil error and the transport error is never
observed — refuting "for every completion order the call returns a nil
record list together with that transport error". -/
theorem getByIDs_chunk_error_lost_when_success_first :
    getByIDsTasks cfgNoSort errOn1Transport idDecode 1 (List.replicate 26 ⟨"p", none⟩) =
      [some ({ Records := List.range 25, Err := none }, 1),
       some ({ Records := [], Err := some "fake error" }, 1)] ∧
    GetByIDs [{ Records := [], Err := some "fake error" },
              { Records := List.range 25, Err := none }] =
      some (.error "fake error") ∧
    GetByIDs [{ Records := List.range 25, Err := none },
              { Records := [], Err := some "fake error" }] =
      some (.ok (List.range 25)) :=
  ⟨by decide, rfl, rfl⟩

/-- C9: with an empty key list, `Partition 0 25` yields no ranges, so zero
chunk tasks are dispatched and nothing is ever sent on the result channel;
the aggregator's first channel receive therefore blocks forever and the
call never returns (`none`). -/
theorem getByIDs_empty_keys_never_returns (Item Rec : Type) (cfg : DBConfig)
    (T : List DBKeyAttr → Except String (BatchGetOutput Item))
    (U : Item → Except String Rec) (fuel : Nat) :
    getByIDsTasks cfg T U fuel [] = [] ∧
    GetByIDs ([] : List (baseModelsWithErr Rec)) = none := by
  constructor
  · have h : Partition ((List.length ([] : List DBPSKeyValues)) : Int) 25 = [] := by decide
    unfold getByIDsTasks
    rw [h]
    rfl
  · rfl

/-- C3 counterexample: with a single key whose partition key value is
empty, every key fails compilation and the compiled request carries zero
keys, yet `GetByIDs` still makes a batch-get network call (the chunk task
unconditionally passes its request to the transport), so the "no network
call is made" part of the claim is false: the transport call count is 1,
not 0. -/
theorem getByIDs_all_bad_keys_still_calls_transport :
    buildGetRequests cfgNoSort [⟨"", none⟩] = [] ∧
    getByIDsCalls cfgNoSort echoTransport idDecode 1 [⟨"", none⟩] = some 1 ∧
    getByIDsCalls cfgNoSort echoTransport idDecode 1 [⟨"", none⟩] ≠ some 0 :=
  ⟨rfl, by decide, by decide⟩

/-- Mapping a function that is constant on a list yields a replicate. -/
theorem map_eq_replicate {α β : Type} (l : List α) (f : α → β) (c : β)
    (h : ∀ a ∈ l, f a = c) : l.map f = List.replicate l.length c := by
  induction l with
  | nil => rfl
  | cons x xs ih =>
    simp only [List.map_cons, List.length_cons, List.replicate_succ]
    exact congrArg₂ List.cons (h x (by simp)) (ih (fun a ha => h a (by simp [ha])))

/-- Folding the call counter over `n` one-call tasks counts `n`. -/
theorem foldl_count_replicate {Rec : Type} (msg : baseModelsWithErr Rec) :
    ∀ (n acc : Nat),
      (List.replicate n (some (msg, 1))).foldl
        (fun acc task =>
          match acc, task with
          | some n, some (_, m) => some (n + m)
          | _, _ => none) (some acc) = some (acc + n) := by
  intro n
  induction n with
  | zero => intro acc; rfl
  | succ n ih =>
    intro acc
    simp only [List.replicate_succ, List.foldl_cons]
    rw [ih (acc + 1)]
    exact congrArg some (by omega)

/-- `WithSortingKey` leaves the partition key value untouched. -/
theorem withSortingKey_partitionKeyValue (expr : AwsExpressionWrapper) (sk sv : String) :
    (expr.WithSortingKey sk sv).partitionKeyValue = expr.partitionKeyValue := by
  unfold AwsExpressionWrapper.WithSortingKey
  split <;> rfl

/-- `CreateQueryKeys` fails whenever no partition key value was stored. -/
theorem createQueryKeys_of_value_none (expr : AwsExpressionWrapper)
    (h : expr.partitionKeyValue = none) :
    expr.CreateQueryKeys = .error "missing partition key" := by
  unfold AwsExpressionWrapper.CreateQueryKeys
  rw [if_pos (Or.inr h)]

/-- An id with an empty partition key value never compiles: `WithPartitionKey`
stores no value for it, so `CreateQueryKeys` fails. -/
theorem compileGetKey_bad (cfg : DBConfig) (id : DBPSKeyValues)
    (hid : id.partitionKey = "") :
    compileGetKey cfg id = .error "missing partition key" := by
  have hv1 : ((NewExpressionWrapper cfg.TableInfo.TableName).WithPartitionKey
      cfg.TableInfo.keys.PartitionKey id.partitionKey).partitionKeyValue = none := by
    unfold NewExpressionWrapper AwsExpressionWrapper.WithPartitionKey
    simp [hid]
  unfold compileGetKey
  dsimp only
  split
  · exact createQueryKeys_of_value_none _
      (by rw [withSortingKey_partitionKeyValue]; exact hv1)
  · exact createQueryKeys_of_value_none _ hv1

/-- The fold of `buildGetRequests` keeps its accumulator unchanged when
every id's partition key value is empty. -/
theorem buildGetRequests_foldl_all_bad (cfg : DBConfig) :
    ∀ (ids : List DBPSKeyValues), (∀ k ∈ ids, k.partitionKey = "") →
    ∀ acc : List DBKeyAttr,
      ids.foldl (fun attributes id =>
        match compileGetKey cfg id with
        | .error _ => attributes
        | .ok attrMap => attributes ++ [attrMap]) acc = acc
  | [], _, _ => rfl
  | id :: ids, h, acc => by
    simp only [List.foldl_cons]
    rw [compileGetKey_bad cfg id (h id (by simp))]
    exact buildGetRequests_foldl_all_bad cfg ids (fun a ha => h a (by simp [ha])) acc

/-- When every id's partition key value is empty, key compilation fails for
each of them and `buildGetRequests` produces an empty `Keys` list. -/
theorem buildGetRequests_all_bad (cfg : DBConfig) (ids : List DBPSKeyValues)
    (h : ∀ k ∈ ids, k.partitionKey = "") :
    buildGetRequests cfg ids = [] := by
  unfold buildGetRequests
  exact buildGetRequests_foldl_all_bad cfg ids h []

/-- A chunk task given a zero-key request still calls the transport once;
with a transport answering the empty request with an empty success, it
reports zero records and no error. -/
theorem loadPage_empty_req {Item Rec : Type}
    (T : List DBKeyAttr → Except String (BatchGetOutput Item))
    (U : Item → Except String Rec) (fuel : Nat) (hfuel : 0 < fuel)
    (hT : T [] = .ok { Responses := [], UnprocessedKeys := [] }) :
    loadPage T U fuel [] = some ({ Records := [], Err := none }, 1) := by
  obtain ⟨f, rfl⟩ : ∃ f, fuel = f + 1 := ⟨fuel - 1, by omega⟩
  unfold loadPage loadFuel
  rw [hT]
  rfl

/-- C3 amended: for every non-empty key list in which every key fails key
compilation (empty partition key value), no key survives into any chunk's
request, yet the orchestrator still issues exactly one batch-get network
call per chunk, each carrying zero keys; given a transport that answers
the empty request with an empty success (as the repository's own test mock
does), every chunk task reports zero records and no error, and the call
returns an empty record list with a nil error for every completion
order. -/
theorem getByIDs_all_bad_keys_calls_and_empty_ok {Item Rec : Type} (cfg : DBConfig)
    (keys : List DBPSKeyValues)
    (T : List DBKeyAttr → Except String (BatchGetOutput Item))
    (U : Item → Except String Rec) (fuel : Nat)
    (hkeys : keys ≠ []) (hbad : ∀ k ∈ keys, k.partitionKey = "")
    (hfuel : 0 < fuel)
    (hT : T [] = .ok { Responses := [], UnprocessedKeys := [] }) :
    getByIDsTasks cfg T U fuel keys =
      List.replicate (Partition (keys.length : Int) 25).length
        (some ({ Records := [], Err := none }, 1)) ∧
    getByIDsCalls cfg T U fuel keys = some (Partition (keys.length : Int) 25).length ∧
    1 ≤ (Partition (keys.length : Int) 25).length ∧
    (∀ arrival : List (baseModelsWithErr Rec),
      arrival.Perm (List.replicate (Partition (keys.length : Int) 25).length
        { Records := [], Err := none }) →
      GetByIDs arrival = some (.ok [])) := by
  have htask : getByIDsTasks cfg T U fuel keys =
      List.replicate (Partition (keys.length : Int) 25).length
        (some ({ Records := [], Err := none }, 1)) := by
    unfold getByIDsTasks
    apply map_eq_replicate
    intro page _
    have hsub : ∀ k ∈ sliceGo keys page.Low page.High, k.partitionKey = "" := by
      intro k hk
      exact hbad k (List.mem_of_mem_take (List.mem_of_mem_drop hk))
    rw [buildGetRequests_all_bad cfg _ hsub]
    exact loadPage_empty_req T U fuel hfuel hT
  have hlen : 1 ≤ (Partition (keys.length : Int) 25).length := by
    have hN : 1 ≤ keys.length := by
      cases keys with
      | nil => exact absurd rfl hkeys
      | cons a l => simp
    have h25 : ((25 : Nat) : Int) = (25 : Int) := by norm_num
    have := Partition_ofNat keys.length 25 (by norm_num)
    rw [h25] at this
    rw [this]
    simp only [List.length_map, List.length_range]
    omega
  refine ⟨htask, ?_, hlen, ?_⟩
  · unfold getByIDsCalls
    rw [htask, foldl_count_replicate]
    norm_num
  · intro arrival harr
    have harr' : arrival =
        List.replicate (Partition (keys.length : Int) 25).length
          ({ Records := [], Err := none } : baseModelsWithErr Rec) :=
      List.perm_replicate.mp harr
    obtain ⟨c, hc⟩ : ∃ c, (Partition (keys.length : Int) 25).length = c + 1 :=
      ⟨(Partition (keys.length : Int) 25).length - 1, by omega⟩
    rw [harr', hc, List.replicate_succ]
    rfl

/-- Witness for `getByIDs_all_bad_keys_calls_and_empty_ok` at the concrete
single bad key `⟨"", none⟩`. -/
theorem getByIDs_all_bad_keys_calls_and_empty_ok_witness :
    getByIDsCalls cfgNoSort echoTransport idDecode 1 [⟨"", none⟩] =
      some (Partition ((([⟨"", none⟩] : List DBPSKeyValues).length : Nat) : Int) 25).length ∧
    GetByIDs [({ Records := [], Err := none } : baseModelsWithErr Nat)] =
      some (.ok []) := by
  have h := getByIDs_all_bad_keys_calls_and_empty_ok
    cfgNoSort [⟨"", none⟩] echoTransport idDecode 1
    (by decide) (by decide) (by decide) rfl
  refine ⟨h.2.1, h.2.2.2 _ ?_⟩
  have : (Partition ((([⟨"", none⟩] : List DBPSKeyValues).length : Nat) : Int) 25).length = 1 := by
    decide
  rw [this]
  rfl

/-! ## Command / bulk-write handler (src/command.go)

A DynamoDB item (`DBMap`) is embedded as an ordered association list of
attribute names to string attribute values (all attributes written by this
code path are `S` string attributes; the marshalled record payload is
opaque to the handler).  `M` stands for the record's `Marshal`, `Un` for
`Unmarshal`, `keysOf` for `GetPartSortKey(nil)`, and `fresh i` for the
random identifiers (`uuid.New().String()`) the auto key generation of the
`i`-th record would produce — the embedding passes the generated values
in explicitly. -/

/-- A DynamoDB item: attribute name to S-string value. -/
abbrev DBMap := List (String × String)

/-- Go map assignment `item[k] = v` on the association-list embedding:
replace the binding if present, append otherwise. -/
def mapSet (m : DBMap) (k v : String) : DBMap :=
  match m with
  | [] => [(k, v)]
  | (k', v') :: rest => if k' = k then (k, v) :: rest else (k', v') :: mapSet rest k v

/-- `handlerImp.createPutItem` from src/command.go: marshal, require or
generate the partition key value, store it in the item, require or
generate the sort key value when the table declares one, store it, and
return the item with the resolved key pair. -/
def createPutItem (cfg : DBConfig) {Rec : Type} (M : Rec → Except String DBMap)
    (keysOf : Rec → DBPSKeyValues) (freshPart freshSort : String)
    (input : Rec) (createPartKey createSortKey : Bool) :
    Except String (DBMap × DBPSKeyValues) := do
  let item ← M input
  let tabInfo := cfg.TableInfo
  let partitionKey := (keysOf input).partitionKey
  let sortKey := (keysOf input).sortKey
  if partitionKey = "" ∧ createPartKey = false then
    .error "missing required partition key"
  else
    let partitionKey := if partitionKey = "" then freshPart else partitionKey
    let item := mapSet item tabInfo.keys.PartitionKey partitionKey
    if tabInfo.keys.SortKey ≠ none ∧ sortKey = none ∧ createSortKey = false then
      .error "missing required sorting key"
    else
      let sortKey :=
        if tabInfo.keys.SortKey ≠ none ∧ sortKey = none then some freshSort else sortKey
      let item :=
        match tabInfo.keys.SortKey, sortKey with
        | some skName, some sk => mapSet item skName sk
        | _, _ => item
      .ok (item, { partitionKey := partitionKey, sortKey := sortKey })

/-- The request-building loop of `batchWrite`: one put item per record of
the (pre-truncated) batch, aborting on the first `createPutItem` error.
`i` indexes `fresh`. -/
def buildPutRequests (cfg : DBConfig) {Rec : Type} (M : Rec → Except String DBMap)
    (keysOf : Rec → DBPSKeyValues) (fresh : Nat → String × String)
    (createPartKey createSortKey : Bool) :
    Nat → List Rec → Except String (List DBMap)
  | _, [] => .ok []
  | i, r :: rest =>
    match createPutItem cfg M keysOf (fresh i).1 (fresh i).2 r createPartKey createSortKey with
    | .error e => .error e
    | .ok (item, _) =>
      (buildPutRequests cfg M keysOf fresh createPartKey createSortKey (i + 1) rest).map
        (fun items => item :: items)

/-- The provider-unprocessed decode loop of `batchWrite`: unmarshal each
unprocessed put item back into a typed record, aborting on the first
decode error. -/
def decodeUnprocessed {Rec : Type} (Un : DBMap → Except String Rec) :
    List DBMap → Except String (List Rec)
  | [] => .ok []
  | item :: rest => do
    let mdl ← Un item
    let others ← decodeUnprocessed Un rest
    .ok (mdl :: others)

/-- `handlerImp.batchWrite` from src/command.go.  `max` is
`int(math.Min(25, float64(len(records))))`, which equals the integer
minimum at these sizes.  The transport `T` is `BatchWriteItemWithContext`
restricted to the handler's table: put items in, provider-reported
unprocessed put items out, or an error.  Returns the result list (the
unprocessed records on success, or the full original `records` on any
error, as the Go code returns), the error if any, and the list of
batch-write requests issued. -/
def batchWrite (cfg : DBConfig) {Rec : Type} (M : Rec → Except String DBMap)
    (keysOf : Rec → DBPSKeyValues) (Un : DBMap → Except String Rec)
    (fresh : Nat → String × String) (T : List DBMap → Except String (List DBMap))
    (records : List Rec) (createPartKey createSortKey : Bool) :
    List Rec × Option String × List (List DBMap) :=
  let maxN := min 25 records.length
  match buildPutRequests cfg M keysOf fresh createPartKey createSortKey 0 (records.take maxN) with
  | .error e => (records, some e, [])
  | .ok requests =>
    let unprocessedItems := records.drop maxN
    match T requests with
    | .error e => (records, some e, [requests])
    | .ok unp =>
      match decodeUnprocessed Un unp with
      | .error e => (records, some e, [requests])
      | .ok decoded => (unprocessedItems ++ decoded, none, [requests])

/-- `handlerImp.BulkAddRecords` from src/command.go: `batchWrite` with
`createPartKey = true` and the caller's `createSortKey`. -/
def BulkAddRecords (cfg : DBConfig) {Rec : Type} (M : Rec → Except String DBMap)
    (keysOf : Rec → DBPSKeyValues) (Un : DBMap → Except String Rec)
    (fresh : Nat → String × String) (T : List DBMap → Except String (List DBMap))
    (createSortKey : Bool) (records : List Rec) :
    List Rec × Option String × List (List DBMap) :=
  batchWrite cfg M keysOf Un fresh T records true createSortKey

/-- C7: for a `BulkAddRecords` call with 29 records whose first 25 all
build successfully into put items, exactly one batch-write request is
issued and it carries exactly the items compiled from the first 25
records; the remaining 4 records appear in no request and are returned in
the unprocessed list, together with the provider-reported unprocessed
items decoded back into typed records; the error is nil. -/
theorem bulkAddRecords_29_only_first_25_attempted {Rec : Type} (cfg : DBConfig)
    (M : Rec → Except String DBMap) (keysOf : Rec → DBPSKeyValues)
    (Un : DBMap → Except String Rec) (fresh : Nat → String × String)
    (T : List DBMap → Except String (List DBMap)) (createSortKey : Bool)
    (records : List Rec) (reqItems unp : List DBMap) (decoded : List Rec)
    (h29 : records.length = 29)
    (hbuild : buildPutRequests cfg M keysOf fresh true createSortKey 0 (records.take 25) =
      .ok reqItems)
    (hT : T reqItems = .ok unp)
    (hdec : decodeUnprocessed Un unp = .ok decoded) :
    BulkAddRecords cfg M keysOf Un fresh T createSortKey records =
      (records.drop 25 ++ decoded, none, [reqItems]) ∧
    (records.drop 25).length = 4 := by
  constructor
  · unfold BulkAddRecords batchWrite
    have hmin : min 25 records.length = 25 := by
      rw [h29]
      decide
    rw [hmin]
    dsimp only
    rw [hbuild]
    dsimp only
    rw [hT]
    dsimp only
    rw [hdec]
  · rw [List.length_drop, h29]

/-- Witness for `bulkAddRecords_29_only_first_25_attempted`: 29 concrete
records, all marshalling to the same payload, partition key `"p"`, no
table sort key, a transport reporting no unprocessed items. -/
theorem bulkAddRecords_29_only_first_25_attempted_witness :
    BulkAddRecords cfgNoSort (fun _ => .ok [("age", "12")]) (fun _ => ⟨"p", none⟩)
        (fun _ => .ok 0) (fun _ => ("fp", "fs")) (fun _ => .ok []) false (List.range 29) =
      ((List.range 29).drop 25 ++ [], none,
        [List.replicate 25 [("age", "12"), ("pkey", "p")]]) ∧
    ((List.range 29).drop 25).length = 4 :=
  bulkAddRecords_29_only_first_25_attempted cfgNoSort _ _ _ _ _ false (List.range 29)
    (List.replicate 25 [("age", "12"), ("pkey", "p")]) [] []
    (by decide) rfl rfl rfl


/-- The per-key loop of `BulkDeleteRecords` (src/command.go lines 144-166):
for each key, build the wrapper, fail if the table requires a sort key the
key does not carry, compile the key attributes, and collect one delete
`WriteRequest` key per input; the first failure aborts the whole build. -/
def buildDeleteItems (cfg : DBConfig) : List DBPSKeyValues → Except String (List DBKeyAttr)
  | [] => .ok []
  | key :: rest =>
    let tableKeys := cfg.TableInfo.keys
    let expr := (NewExpressionWrapper cfg.TableInfo.TableName).WithPartitionKey
      tableKeys.PartitionKey key.partitionKey
    if tableKeys.SortKey ≠ none ∧ key.sortKey = none then
      .error "missing required sort key"
    else
      let expr :=
        match tableKeys.SortKey, key.sortKey with
        | some sk, some sv => expr.WithSortingKey sk sv
        | _, _ => expr
      match expr.CreateQueryKeys with
      | .error e => .error e
      | .ok attrMap => (buildDeleteItems cfg rest).map (fun items => attrMap :: items)

/-- The unprocessed-item decode loop of `BulkDeleteRecords`
(src/command.go lines 178-195).  For each unprocessed delete item the
partition key attribute is unmarshalled into a string (the error is
discarded, leaving `""` when the attribute is absent or nil), and then the
sort key attribute is looked up under `string(*tabInfo.SortKey)`:
the sort-key name pointer is dereferenced unconditionally, so when the
table declares no sort key this is a nil pointer dereference — the Go
program panics, embedded as `none`. -/
def decodeDeleteUnprocessed (cfg : DBConfig) :
    List DBKeyAttr → Option (List DBPSKeyValues)
  | [] => some []
  | item :: rest =>
    let partKey := ((item.lookup cfg.TableInfo.keys.PartitionKey).getD none).getD ""
    match cfg.TableInfo.keys.SortKey with
    | none => none
    | some skName =>
      let sortKey := ((item.lookup skName).getD none).getD ""
      let dbKey : DBPSKeyValues :=
        { partitionKey := partKey
          sortKey := if sortKey ≠ "" then some sortKey else none }
      (decodeDeleteUnprocessed cfg rest).map (fun others => dbKey :: others)

/-- The outcome of a `BulkDeleteRecords` call: a normal return of a key
list with an optional error, or a runtime panic. -/
inductive BulkDeleteResult where
  | ret (keys : List DBPSKeyValues) (err : Option String)
  | panicked
deriving DecidableEq, Repr

/-- `handlerImp.BulkDeleteRecords` from src/command.go: outcome plus the
number of batch-write transport calls issued.  `T` is
`BatchWriteItemWithContext` restricted to the handler's table: the delete
request keys in, the provider-reported unprocessed delete keys out, or an
error.  On any build error the original input list is returned with the
error and no transport call is made. -/
def BulkDeleteRecords (cfg : DBConfig)
    (T : List DBKeyAttr → Except String (List DBKeyAttr))
    (dbKeys : List DBPSKeyValues) : BulkDeleteResult × Nat :=
  match buildDeleteItems cfg dbKeys with
  | .error e => (.ret dbKeys (some e), 0)
  | .ok items =>
    match T items with
    | .error e => (.ret dbKeys (some e), 1)
    | .ok unprocessed =>
      match decodeDeleteUnprocessed cfg unprocessed with
      | none => (.panicked, 1)
      | some unprocessedItems => (.ret unprocessedItems none, 1)

/-- When the table declares a sort key and some input key lacks one, the
build loop aborts with an error. -/
theorem buildDeleteItems_missing_sort (cfg : DBConfig)
    (hsk : cfg.TableInfo.keys.SortKey ≠ none) :
    ∀ dbKeys : List DBPSKeyValues, (∃ k ∈ dbKeys, k.sortKey = none) →
      ∃ e, buildDeleteItems cfg dbKeys = .error e
  | [], h => absurd h (by simp)
  | key :: rest, h => by
    unfold buildDeleteItems
    dsimp only
    by_cases hkey : key.sortKey = none
    · rw [if_pos ⟨hsk, hkey⟩]
      exact ⟨_, rfl⟩
    · rw [if_neg (fun hc => hkey hc.2)]
      have hrest : ∃ k ∈ rest, k.sortKey = none := by
        obtain ⟨k, hk, hknone⟩ := h
        rcases List.mem_cons.mp hk with rfl | hmem
        · exact absurd hknone hkey
        · exact ⟨k, hmem, hknone⟩
      obtain ⟨e, he⟩ := buildDeleteItems_missing_sort cfg hsk rest hrest
      cases hc : ((match cfg.TableInfo.keys.SortKey, key.sortKey with
          | some sk, some sv =>
            ((NewExpressionWrapper cfg.TableInfo.TableName).WithPartitionKey
              cfg.TableInfo.keys.PartitionKey key.partitionKey).WithSortingKey sk sv
          | _, _ =>
            (NewExpressionWrapper cfg.TableInfo.TableName).WithPartitionKey
              cfg.TableInfo.keys.PartitionKey key.partitionKey) :
            AwsExpressionWrapper).CreateQueryKeys with
      | error e2 => exact ⟨e2, rfl⟩
      | ok attrMap =>
        refine ⟨e, ?_⟩
        show Except.map (fun items => attrMap :: items) (buildDeleteItems cfg rest) =
          Except.error e
        rw [he]
        rfl

/-- C8: for every `BulkDeleteRecords` call on a table whose schema declares
a sort key, where at least one input key carries no sort key value, the
call returns an error together with the original input key list unchanged
and issues no batch-write network call. -/
theorem bulkDeleteRecords_missing_sort_key (cfg : DBConfig)
    (T : List DBKeyAttr → Except String (List DBKeyAttr))
    (dbKeys : List DBPSKeyValues)
    (hsk : cfg.TableInfo.keys.SortKey ≠ none)
    (hbad : ∃ k ∈ dbKeys, k.sortKey = none) :
    ∃ e, BulkDeleteRecords cfg T dbKeys = (.ret dbKeys (some e), 0) := by
  obtain ⟨e, he⟩ := buildDeleteItems_missing_sort cfg hsk dbKeys hbad
  refine ⟨e, ?_⟩
  unfold BulkDeleteRecords
  rw [he]

/-- Test configuration with a sort key: table `"table"`, partition key
attribute `"pkey"`, sort key attribute `"skey"`. -/
def cfgWithSort : DBConfig where
  TableInfo := { TableName := "table", keys := { PartitionKey := "pkey", SortKey := some "skey" } }
  Indexes := []

/-- Witness for `bulkDeleteRecords_missing_sort_key`: one key with a
partition value but no sort value on a sorted table. -/
theorem bulkDeleteRecords_missing_sort_key_witness :
    ∃ e, BulkDeleteRecords cfgWithSort (fun _ => .ok []) [⟨"p", none⟩] =
      (.ret [⟨"p", none⟩] (some e), 0) :=
  bulkDeleteRecords_missing_sort_key cfgWithSort (fun _ => .ok []) [⟨"p", none⟩]
    (by decide) ⟨⟨"p", none⟩, by decide, rfl⟩

/-- C10: when the table configuration declares no sort key and the
provider's batch-write response reports at least one unprocessed delete
item, decoding the unprocessed items dereferences the nil sort-key name
pointer, so `BulkDeleteRecords` panics instead of returning the
unprocessed key list. -/
theorem bulkDeleteRecords_nil_sortkey_panics (cfg : DBConfig)
    (T : List DBKeyAttr → Except String (List DBKeyAttr))
    (dbKeys : List DBPSKeyValues) (items unp : List DBKeyAttr)
    (hsk : cfg.TableInfo.keys.SortKey = none)
    (hbuild : buildDeleteItems cfg dbKeys = .ok items)
    (hT : T items = .ok unp)
    (hunp : unp ≠ []) :
    BulkDeleteRecords cfg T dbKeys = (.panicked, 1) := by
  obtain ⟨u, rest, rfl⟩ : ∃ u rest, unp = u :: rest := by
    cases unp with
    | nil => exact absurd rfl hunp
    | cons u rest => exact ⟨u, rest, rfl⟩
  have hdec : decodeDeleteUnprocessed cfg (u :: rest) = none := by
    unfold decodeDeleteUnprocessed
    dsimp only
    rw [hsk]
  unfold BulkDeleteRecords
  rw [hbuild]
  dsimp only
  rw [hT]
  dsimp only
  rw [hdec]

/-- Witness for `bulkDeleteRecords_nil_sortkey_panics`: one valid key on a
sort-key-less table, a transport reporting that very delete as
unprocessed. -/
theorem bulkDeleteRecords_nil_sortkey_panics_witness :
    BulkDeleteRecords cfgNoSort (fun req => .ok req) [⟨"p", none⟩] = (.panicked, 1) :=
  bulkDeleteRecords_nil_sortkey_panics cfgNoSort (fun req => .ok req) [⟨"p", none⟩]
    [[("pkey", some "p")]] [[("pkey", some "p")]] rfl rfl rfl (by decide)

end Dyorm
